import Mathlib

/-!
Verification of the MetaMask multi-chain balance aggregator.

This file shallowly embeds the aggregator source (the full-precision
variant with token probing, which the design document designates as
canonical): the chain registry `SUPPORTED_CHAINS`, the network-switch
coordinator `waitForNetworkChange` / `switchChain`, the balance readers
`getNativeTokenBalance` / `getTokenBalance`, the per-chain token table
`getCommonTokensForChain`, the aggregator `getAccountHoldings`, and the
account connector `connectMetaMask`.

The wallet provider is modelled as a `Wallet` record of response
functions: the outcome of each `wallet_switchEthereumChain` and
`wallet_addEthereumChain` request, the timed `chainChanged` event trace
delivered while a switch waits for confirmation, and the balance / ERC-20
read oracles.  Listener and timer registration is made observable through
an explicit `WalletAction` log, and `ethers.utils.formatUnits` is embedded
as exact decimal-string scaling over `Nat`.
-/

/-- Decimal digits of a natural number, least-significant first, driven by
an explicit fuel argument so that the kernel can evaluate it. -/
def digitsFuel : Nat → Nat → List Nat
  | 0, _ => []
  | fuel + 1, n => if n = 0 then [] else n % 10 :: digitsFuel fuel (n / 10)

/-- Decimal digits of a natural number, least-significant first
(`[]` for zero, mirroring `Nat.digits 10`). -/
def natDigitsLE (n : Nat) : List Nat :=
  digitsFuel n n

/-- Decimal representation of a natural number as a character list,
most-significant digit first; embeds JavaScript `BigNumber.toString`. -/
def natDigits (n : Nat) : List Char :=
  if n = 0 then [Nat.digitChar 0] else ((natDigitsLE n).map Nat.digitChar).reverse

/-- The remainder `r` rendered in exactly `decimals` least-significant
digit positions, with its leading (least-significant) zeros dropped:
least-significant-first, these are exactly the trailing zeros that
`ethers` strips from the rendered fraction. -/
def strippedFrac (r decimals : Nat) : List Nat :=
  (natDigitsLE r ++ List.replicate (decimals - (natDigitsLE r).length) 0).dropWhile
    (fun k => k == 0)

/-- Fractional digits of `ethers` fixed-point formatting, most-significant
first: trailing zeros stripped, but at least one digit kept. -/
def fracDigits (r decimals : Nat) : List Nat :=
  if strippedFrac r decimals = [] then [0] else (strippedFrac r decimals).reverse

/-- Embedding of `ethers.utils.formatUnits(balance, decimals)` for
non-negative values: exact full-precision division by `10 ^ decimals`
rendered as a decimal string (whole part, then a dot and the fraction
with trailing zeros stripped down to at least one digit). -/
def formatUnits (balance decimals : Nat) : String :=
  if decimals = 0 then String.mk (natDigits balance)
  else
    String.mk (natDigits (balance / 10 ^ decimals)
      ++ ('.') :: (fracDigits (balance % 10 ^ decimals) decimals).map Nat.digitChar)

/-- A thrown JavaScript error as seen at the wallet boundary: an optional
numeric `code` and a `message`. -/
structure JsError where
  code : Option Int
  message : String
deriving DecidableEq, Repr

deriving instance DecidableEq for Except

/-- The `TokenHolding` record of the source. -/
structure TokenHolding where
  symbol : String
  chain : String
  quantity : String
  selected : Option Bool
deriving DecidableEq, Repr

/-- The `Account` record of the source. -/
structure Account where
  address : String
  holdings : List TokenHolding
deriving DecidableEq, Repr

/-- One entry of `SUPPORTED_CHAINS`. -/
structure ChainInfo where
  chainId : String
  name : String
  rpc : String
  nativeSymbol : String
  nativeDecimals : Nat
deriving DecidableEq, Repr

/-- The `ETH_MAINNET` entry of `SUPPORTED_CHAINS`. -/
def ETH_MAINNET : ChainInfo :=
  { chainId := "0x1", name := "ETHEREUM",
    rpc := "https://mainnet.infura.io/v3/your-project-id",
    nativeSymbol := "ETH", nativeDecimals := 18 }

/-- The `BSC` entry of `SUPPORTED_CHAINS`. -/
def BSC : ChainInfo :=
  { chainId := "0x38", name := "BNB CHAIN",
    rpc := "https://bsc-dataseed.binance.org",
    nativeSymbol := "BNB", nativeDecimals := 18 }

/-- The `POLYGON` entry of `SUPPORTED_CHAINS`. -/
def POLYGON : ChainInfo :=
  { chainId := "0x89", name := "POLYGON",
    rpc := "https://polygon-rpc.com",
    nativeSymbol := "MATIC", nativeDecimals := 18 }

/-- The `ARBITRUM` entry of `SUPPORTED_CHAINS`. -/
def ARBITRUM : ChainInfo :=
  { chainId := "0xa4b1", name := "ARBITRUM",
    rpc := "https://arb1.arbitrum.io/rpc",
    nativeSymbol := "ETH", nativeDecimals := 18 }

/-- The chain registry, in the iteration order of
`Object.values(SUPPORTED_CHAINS)` (JavaScript insertion order). -/
def SUPPORTED_CHAINS : List ChainInfo :=
  [ETH_MAINNET, BSC, POLYGON, ARBITRUM]

/-- One entry of the per-chain known-token table. -/
structure TokenRef where
  address : String
  symbol : String
deriving DecidableEq, Repr

/-- Embedding of `getCommonTokensForChain`. -/
def getCommonTokensForChain (chainId : String) : List TokenRef :=
  if chainId == "0x1" then
    [ { address := "0xA0b86991c6218b36c1d19D4a2e9Eb0cE3606eB48", symbol := "USDC" },
      { address := "0xdAC17F958D2ee523a2206206994597C13D831ec7", symbol := "USDT" },
      { address := "0x2260FAC5E5542a773Aa44fBCfeDf7C193bc2C599", symbol := "WBTC" } ]
  else if chainId == "0x38" then
    [ { address := "0x8AC76a51cc950d9822D68b83fE1Ad97B32Cd580d", symbol := "USDC" },
      { address := "0x55d398326f99059fF775485246999027B3197955", symbol := "USDT" } ]
  else []

/-- Responses of the minimal ERC-20 interface of one token contract on
one chain: `balanceOf` (per queried wallet address), `symbol`,
`decimals`.  `Except.error ()` models a failing or non-conforming call. -/
structure Erc20 where
  balanceOf : String → Except Unit Nat
  symbol : Except Unit String
  decimals : Except Unit Nat

/-- The injected wallet provider together with its simulated environment.
`switchReq cid` is the outcome of `wallet_switchEthereumChain` for target
`cid` (`none` = fulfilled); `addReq cid` likewise for
`wallet_addEthereumChain`; `waitEvents cid retry` is the timed
`chainChanged` event trace (delivery order, milliseconds) observed while
waiting for the switch to `cid` (`retry` distinguishes the wait after an
add-network fallback); `getBalance cid addr` is the native balance read
through a provider bound to chain `cid`; `contractAt cid tokenAddr` is
the ERC-20 interface of a token contract; `requestAccounts` is the
outcome of `eth_requestAccounts`. -/
structure Wallet where
  switchReq : String → Option JsError
  addReq : String → Option JsError
  waitEvents : String → Bool → List (Nat × String)
  getBalance : String → String → Except Unit Nat
  contractAt : String → String → Erc20
  requestAccounts : Except JsError (List String)

/-- Observable side effects of the network-switch coordinator: timer and
`chainChanged`-listener management, and the parameters of an issued
`wallet_addEthereumChain` request. -/
inductive WalletAction where
  | setTimer
  | clearTimer
  | addListener
  | removeListener
  | addChainReq (chainId chainName rpcUrl nativeSymbol : String) (nativeDecimals : Nat)
deriving DecidableEq, Repr

/-- Occurrence count of one action in an action log. -/
def countAct (a : WalletAction) : List WalletAction → Nat
  | [] => 0
  | x :: rest => (if x = a then 1 else 0) + countAct a rest

/-- The timeout of `waitForNetworkChange`, in milliseconds. -/
def NETWORK_CHANGE_TIMEOUT_MS : Nat := 3000

/-- The message of the timeout error thrown by `waitForNetworkChange`. -/
def networkChangeTimeoutMsg : String := "Network change timeout"

/-- Scan of a timed `chainChanged` event trace: the first event whose
reported identifier equals the target decides the race — the wait
resolves if that event arrives strictly before the timeout fires, and
times out otherwise (or when no matching event ever arrives). -/
def scanEvents (target : String) : List (Nat × String) → Bool
  | [] => false
  | (t, id) :: rest =>
      if id == target then decide (t < NETWORK_CHANGE_TIMEOUT_MS) else scanEvents target rest

/-- The action log of one wait: arm the timer, register the listener,
and then the `cleanup` pair (clear the timer, remove the listener),
which runs on the resolve path and on the timeout path alike. -/
def waitActs : List WalletAction :=
  [WalletAction.setTimer, WalletAction.addListener,
   WalletAction.clearTimer, WalletAction.removeListener]

/-- Embedding of `waitForNetworkChange`: arms a 3000 ms timer, registers
the `chainChanged` listener, resolves on a matching notification or
rejects with the timeout error, and in either case runs `cleanup`
(clear the timer, remove the listener).  The second component is the
log of timer and listener actions. -/
def waitForNetworkChange (target : String) (events : List (Nat × String)) :
    Except JsError Unit × List WalletAction :=
  if scanEvents target events then
    (Except.ok (), waitActs)
  else
    (Except.error { code := none, message := networkChangeTimeoutMsg }, waitActs)

/-- The `wallet_addEthereumChain` request parameters built by
`switchChain` from a registry entry. -/
def addChainAction (c : ChainInfo) : WalletAction :=
  WalletAction.addChainReq c.chainId c.name c.rpc c.nativeSymbol c.nativeDecimals

/-- Embedding of `switchChain`: issue the switch request; on fulfilment
wait for the network change and return a fresh provider (modelled as the
chain identifier it is bound to).  If the switch request rejected with
code 4902, look the chain up in the registry, issue an add-network
request and, if that is fulfilled, retry the wait; any other failure is
rethrown.  The second component is the action log of the call. -/
def switchChain (w : Wallet) (chainId : String) :
    Except JsError String × List WalletAction :=
  match w.switchReq chainId with
  | none =>
      match waitForNetworkChange chainId (w.waitEvents chainId false) with
      | (Except.ok _, acts) => (Except.ok chainId, acts)
      | (Except.error e, acts) => (Except.error e, acts)
  | some e =>
      if e.code = some 4902 then
        match SUPPORTED_CHAINS.find? (fun c => c.chainId == chainId) with
        | some chain =>
            match w.addReq chainId with
            | none =>
                match waitForNetworkChange chainId (w.waitEvents chainId true) with
                | (Except.ok _, acts) => (Except.ok chainId, addChainAction chain :: acts)
                | (Except.error e2, acts) => (Except.error e2, addChainAction chain :: acts)
            | some e2 => (Except.error e2, [addChainAction chain])
        | none => (Except.error e, [])
      else (Except.error e, [])

/-- Embedding of `getNativeTokenBalance`: read the native balance through
the provider; on a non-zero balance build a holding scaled by the
registry's native decimals, on a zero balance or a failed read return
`none` (the failure is only logged). -/
def getNativeTokenBalance (w : Wallet) (provider address : String) (chain : ChainInfo) :
    Option TokenHolding :=
  match w.getBalance provider address with
  | Except.ok balance =>
      if balance = 0 then none
      else
        some { symbol := chain.nativeSymbol, chain := chain.name,
               quantity := formatUnits balance chain.nativeDecimals,
               selected := some false }
  | Except.error _ => none

/-- Embedding of `getTokenBalance`: query `balanceOf`, `symbol` and
`decimals` of the token contract together (`Promise.all`); if any of the
three rejects the token yields `none`, otherwise a non-zero balance is
scaled by the queried decimals and labelled with the queried symbol. -/
def getTokenBalance (w : Wallet) (provider tokenAddress walletAddress chainName : String) :
    Option TokenHolding :=
  match (w.contractAt provider tokenAddress).balanceOf walletAddress,
        (w.contractAt provider tokenAddress).symbol,
        (w.contractAt provider tokenAddress).decimals with
  | Except.ok balance, Except.ok sym, Except.ok dec =>
      if balance = 0 then none
      else
        some { symbol := sym, chain := chainName,
               quantity := formatUnits balance dec, selected := some false }
  | _, _, _ => none

/-- Embedding of `getAccountHoldings`: iterate the registry sequentially;
for each chain, switch to it, append the native holding (when present)
and then the known-token holdings in table order; if the switch rejects,
log and skip the chain, keeping the holdings gathered so far. -/
def getAccountHoldings (w : Wallet) (address : String) : List TokenHolding :=
  List.foldl
    (fun holdings chain =>
      match (switchChain w chain.chainId).fst with
      | Except.ok provider =>
          holdings
            ++ (getNativeTokenBalance w provider address chain).toList
            ++ (((getCommonTokensForChain chain.chainId).map
                  (fun token => getTokenBalance w provider token.address address chain.name)).filterMap id)
      | Except.error _ => holdings)
    [] SUPPORTED_CHAINS

/-- A thrown value as observed by a caller of `connectMetaMask`: either a
`MetaMaskError` (carrying only a message) or a plain wallet error. -/
inductive JsException where
  | metaMaskError (message : String)
  | jsError (e : JsError)
deriving DecidableEq, Repr

/-- The `code` property of a thrown value (`MetaMaskError` has none). -/
def exceptionCode : JsException → Option Int
  | JsException.metaMaskError _ => none
  | JsException.jsError e => e.code

/-- The `message` property of a thrown value. -/
def exceptionMessage : JsException → String
  | JsException.metaMaskError m => m
  | JsException.jsError e => e.message

/-- The browsing environment of `connectMetaMask`: whether `window` is
defined, and the injected provider when present. -/
structure Env where
  windowDefined : Bool
  ethereum : Option Wallet

/-- The message of the user-rejection `MetaMaskError`. -/
def userRejectedMsg : String := "User rejected the connection request"

/-- The fallback message of the generic connection `MetaMaskError`. -/
def failedConnectMsg : String := "Failed to connect to MetaMask"

/-- The message of the empty-account-list `MetaMaskError`. -/
def noAccountsMsg : String := "No accounts found"

/-- The body of the `try` block of `connectMetaMask`: request the
authorized accounts, fail on an empty list, and otherwise aggregate
holdings for every address (`Promise.all` over the addresses). -/
def connectTryBlock (w : Wallet) : Except JsException (List Account) :=
  match w.requestAccounts with
  | Except.error e => Except.error (JsException.jsError e)
  | Except.ok accounts =>
      if accounts.isEmpty then Except.error (JsException.metaMaskError noAccountsMsg)
      else
        Except.ok (accounts.map
          (fun address => { address := address, holdings := getAccountHoldings w address }))

/-- Embedding of `connectMetaMask`: environment and wallet-presence
checks, then the `try` block; the `catch` rewraps any thrown value as a
`MetaMaskError` — the user-rejection message for code 4001, else the
original message with the generic fallback when that message is empty
(JavaScript `error.message || fallback`). -/
def connectMetaMask (env : Env) : Except JsException (List Account) :=
  if env.windowDefined = false then
    Except.error (JsException.metaMaskError "MetaMask cannot be accessed server-side")
  else
    match env.ethereum with
    | none => Except.error (JsException.metaMaskError "MetaMask is not installed")
    | some w =>
        match connectTryBlock w with
        | Except.ok accounts => Except.ok accounts
        | Except.error e =>
            if exceptionCode e = some 4001 then
              Except.error (JsException.metaMaskError userRejectedMsg)
            else if exceptionMessage e = "" then
              Except.error (JsException.metaMaskError failedConnectMsg)
            else
              Except.error (JsException.metaMaskError (exceptionMessage e))

/-- Truth value of an `Except` being a success. -/
def exceptOk {ε α : Type} : Except ε α → Bool
  | Except.ok _ => true
  | Except.error _ => false

/-- Spec-side description of one chain's contribution when its switch
succeeded: the native holding (when present) first, then the known-token
holdings in the order of the token table. -/
def chainHoldings (w : Wallet) (address : String) (chain : ChainInfo) : List TokenHolding :=
  (getNativeTokenBalance w chain.chainId address chain).toList
    ++ (((getCommonTokensForChain chain.chainId).map
          (fun token => getTokenBalance w chain.chainId token.address address chain.name)).filterMap id)

/-- Spec-side description of one chain's contribution to the aggregate:
its holdings when its switch succeeded, nothing when the switch failed. -/
def chainContribution (w : Wallet) (address : String) (chain : ChainInfo) : List TokenHolding :=
  if exceptOk (switchChain w chain.chainId).fst then chainHoldings w address chain else []

/-- Spec-side aggregate over a chain list, in list order: the
concatenation of the per-chain contributions.  `Modelled from the spec`
section 4.3: registry iteration order, skip-on-failure. -/
def specAggregate (w : Wallet) (address : String) : List ChainInfo → List TokenHolding
  | [] => []
  | chain :: rest => chainContribution w address chain ++ specAggregate w address rest

/-- A wallet error with the unrecognized-network code 4902. -/
def unrecognizedErr : JsError := { code := some 4902, message := "Unrecognized chain ID" }

/-- A wallet error with the user-rejection code 4001. -/
def addRejectErr : JsError := { code := some 4001, message := "User rejected the request" }

/-- A wallet error carrying no code and an empty message. -/
def emptyMsgErr : JsError := { code := none, message := "" }

/-- A demonstration address. -/
def demoAddr : String := "0xabc"

/-- The symbol reported by the demonstration token contracts. -/
def demoTokenSym : String := "TKN"

/-- A fully co-operative demonstration wallet: every switch request is
fulfilled, a matching notification arrives after one millisecond, every
native balance reads 5, and every token contract reports balance 7 with
symbol `demoTokenSym` and 2 decimals. -/
def demoWallet : Wallet :=
  { switchReq := fun _ => none,
    addReq := fun _ => none,
    waitEvents := fun cid _ => [(1, cid)],
    getBalance := fun _ _ => Except.ok 5,
    contractAt := fun _ _ =>
      { balanceOf := fun _ => Except.ok 7,
        symbol := Except.ok demoTokenSym,
        decimals := Except.ok 2 },
    requestAccounts := Except.ok [demoAddr] }

/-- The demonstration browsing environment around `demoWallet`. -/
def demoEnv : Env := { windowDefined := true, ethereum := some demoWallet }

/-- The first native holding that `demoWallet` produces on Ethereum. -/
def demoHolding : TokenHolding :=
  { symbol := ETH_MAINNET.nativeSymbol, chain := ETH_MAINNET.name,
    quantity := formatUnits 5 18, selected := some false }

/-- The token holding that `demoWallet` produces for each known Ethereum
token. -/
def demoTokenHolding : TokenHolding :=
  { symbol := demoTokenSym, chain := ETH_MAINNET.name,
    quantity := formatUnits 7 2, selected := some false }

/-- A wallet whose switch requests reject with code 4902 and whose
add-network requests are then also rejected: it drives `switchChain`
down the add-network-failure exit path. -/
def addFailWallet : Wallet :=
  { switchReq := fun _ => some unrecognizedErr,
    addReq := fun _ => some addRejectErr,
    waitEvents := fun _ _ => [],
    getBalance := fun _ _ => Except.ok 0,
    contractAt := fun _ _ =>
      { balanceOf := fun _ => Except.error (),
        symbol := Except.error (),
        decimals := Except.error () },
    requestAccounts := Except.ok [] }

/-- A wallet whose switch requests reject with code 4902 but whose
add-network requests are fulfilled, after which a matching notification
arrives promptly: it drives `switchChain` down the add-network-success
path. -/
def addOkWallet : Wallet :=
  { switchReq := fun _ => some unrecognizedErr,
    addReq := fun _ => none,
    waitEvents := fun cid _ => [(1, cid)],
    getBalance := fun _ _ => Except.ok 5,
    contractAt := fun _ _ =>
      { balanceOf := fun _ => Except.ok 7,
        symbol := Except.ok demoTokenSym,
        decimals := Except.ok 2 },
    requestAccounts := Except.ok [demoAddr] }

/-- A wallet whose account-authorization request rejects with the
user-rejection code 4001. -/
def rejectWallet : Wallet :=
  { switchReq := fun _ => none,
    addReq := fun _ => none,
    waitEvents := fun cid _ => [(1, cid)],
    getBalance := fun _ _ => Except.ok 0,
    contractAt := fun _ _ =>
      { balanceOf := fun _ => Except.ok 0,
        symbol := Except.ok demoTokenSym,
        decimals := Except.ok 2 },
    requestAccounts := Except.error addRejectErr }

/-- The browsing environment around `rejectWallet`. -/
def rejectEnv : Env := { windowDefined := true, ethereum := some rejectWallet }

/-- A wallet whose account-authorization request rejects with an error
that has no code and an empty message. -/
def emptyMsgWallet : Wallet :=
  { switchReq := fun _ => none,
    addReq := fun _ => none,
    waitEvents := fun cid _ => [(1, cid)],
    getBalance := fun _ _ => Except.ok 0,
    contractAt := fun _ _ =>
      { balanceOf := fun _ => Except.ok 0,
        symbol := Except.ok demoTokenSym,
        decimals := Except.ok 2 },
    requestAccounts := Except.error emptyMsgErr }

/-- The browsing environment around `emptyMsgWallet`. -/
def emptyMsgEnv : Env := { windowDefined := true, ethereum := some emptyMsgWallet }

/-- A co-operative wallet holding exactly one Ether of native balance
(10 to the 18 wei) everywhere, and 500000 raw units of every token,
whose contracts report symbol USDC and 6 decimals. -/
def oneEtherWallet : Wallet :=
  { switchReq := fun _ => none,
    addReq := fun _ => none,
    waitEvents := fun cid _ => [(1, cid)],
    getBalance := fun _ _ => Except.ok 1000000000000000000,
    contractAt := fun _ _ =>
      { balanceOf := fun _ => Except.ok 500000,
        symbol := Except.ok "USDC",
        decimals := Except.ok 6 },
    requestAccounts := Except.ok [demoAddr] }

/-- A wallet whose switch requests are fulfilled but which never emits a
`chainChanged` notification: every wait times out. -/
def timeoutWallet : Wallet :=
  { switchReq := fun _ => none,
    addReq := fun _ => none,
    waitEvents := fun _ _ => [],
    getBalance := fun _ _ => Except.ok 0,
    contractAt := fun _ _ =>
      { balanceOf := fun _ => Except.ok 0,
        symbol := Except.ok demoTokenSym,
        decimals := Except.ok 2 },
    requestAccounts := Except.ok [demoAddr] }

/-- An event trace whose only matching notification arrives two seconds
after the timeout. -/
def lateEvents : List (Nat × String) := [(5000, ETH_MAINNET.chainId)]


/-- The first known Ethereum token of the table (USDC). -/
def usdcEthToken : TokenRef :=
  { address := "0xA0b86991c6218b36c1d19D4a2e9Eb0cE3606eB48", symbol := "USDC" }

/-- The canonical rendering of one whole unit. -/
def oneStr : String := "1.0"

/-- The canonical rendering of half a unit. -/
def halfStr : String := "0.5"


/-- The fuel-driven digit function agrees with `Nat.digits 10` when the
fuel dominates the argument. -/
theorem digitsFuel_eq_digits (fuel n : Nat) (h : n ≤ fuel) :
    digitsFuel fuel n = Nat.digits 10 n := by
  induction fuel generalizing n with
  | zero =>
      have hn : n = 0 := Nat.le_zero.mp h
      subst hn
      simp [digitsFuel]
  | succ fuel ih =>
      by_cases hn : n = 0
      · subst hn
        simp [digitsFuel]
      · have hpos : 0 < n := Nat.pos_of_ne_zero hn
        rw [digitsFuel, if_neg hn, Nat.digits_def' (by norm_num : (1 : Nat) < 10) hpos]
        have hdiv : n / 10 ≤ fuel := by
          have h1 : n / 10 < n := Nat.div_lt_self hpos (by norm_num)
          omega
        rw [ih (n / 10) hdiv]

/-- The little-endian digit list agrees with `Nat.digits 10`. -/
theorem natDigitsLE_eq (n : Nat) : natDigitsLE n = Nat.digits 10 n :=
  digitsFuel_eq_digits n n (Nat.le_refl n)

/-- Every entry of the little-endian digit list is a decimal digit. -/
theorem mem_natDigitsLE_lt {n d : Nat} (hd : d ∈ natDigitsLE n) : d < 10 := by
  rw [natDigitsLE_eq] at hd
  exact Nat.digits_lt_base (by norm_num) hd

/-- A decimal digit renders as the zero character only when it is zero. -/
theorem digitChar_eq_zero_iff : ∀ d : Nat, d < 10 → (Nat.digitChar d = '0' ↔ d = 0) := by
  decide

/-- A decimal digit never renders as the dot character. -/
theorem digitChar_ne_dot : ∀ d : Nat, d < 10 → Nat.digitChar d ≠ '.' := by
  decide

/-- The decimal rendering of a natural number is never empty. -/
theorem natDigits_ne_nil (n : Nat) : natDigits n ≠ [] := by
  unfold natDigits
  by_cases hn : n = 0
  · simp [hn]
  · rw [if_neg hn]
    intro hcon
    have : natDigitsLE n = [] := by
      have := congrArg List.reverse hcon
      simp at this
      exact this
    rw [natDigitsLE_eq] at this
    exact (Nat.digits_ne_nil_iff_ne_zero.mpr hn) this

/-- The dot character never occurs in the decimal rendering of a natural
number. -/
theorem dot_not_mem_natDigits (n : Nat) : '.' ∉ natDigits n := by
  unfold natDigits
  by_cases hn : n = 0
  · rw [if_pos hn]
    decide
  · rw [if_neg hn]
    intro hmem
    rw [List.mem_reverse, List.mem_map] at hmem
    obtain ⟨d, hd, hchar⟩ := hmem
    exact digitChar_ne_dot d (mem_natDigitsLE_lt hd) hchar

/-- A number all of whose decimal digits are zero is zero. -/
theorem eq_zero_of_digits_all_zero {n : Nat} (h : ∀ x ∈ Nat.digits 10 n, x = 0) : n = 0 := by
  have hof := Nat.ofDigits_digits 10 n
  have hzero : ∀ (l : List Nat), (∀ x ∈ l, x = 0) → Nat.ofDigits 10 l = 0 := by
    intro l
    induction l with
    | nil => intro _; simp [Nat.ofDigits_nil]
    | cons x xs ih =>
        intro hall
        rw [Nat.ofDigits_cons]
        have hx : x = 0 := hall x (List.mem_cons_self x xs)
        have hxs : Nat.ofDigits 10 xs = 0 := ih (fun y hy => hall y (List.mem_cons_of_mem x hy))
        rw [hx, hxs]
  have := hzero (Nat.digits 10 n) h
  rw [hof] at this
  exact_mod_cast this

/-- Only zero renders as the single zero character. -/
theorem natDigits_eq_single_zero {n : Nat} (h : natDigits n = ['0']) : n = 0 := by
  by_contra hn
  rw [natDigits, if_neg hn] at h
  have hmap : (natDigitsLE n).map Nat.digitChar = ['0'] := by
    have := congrArg List.reverse h
    simpa using this
  have hlen : (natDigitsLE n).length = 1 := by
    have := congrArg List.length hmap
    simpa using this
  obtain ⟨d, hd⟩ := List.length_eq_one.mp hlen
  rw [hd] at hmap
  simp at hmap
  have hdlt : d < 10 := mem_natDigitsLE_lt (by rw [hd]; exact List.mem_singleton.mpr rfl)
  have hd0 : d = 0 := (digitChar_eq_zero_iff d hdlt).mp hmap
  have hdig : Nat.digits 10 n = [0] := by
    rw [← natDigitsLE_eq, hd, hd0]
  have : n = 0 := eq_zero_of_digits_all_zero (by rw [hdig]; simp)
  exact hn this

/-- An element surviving `dropWhile` belongs to the original list. -/
theorem mem_of_mem_dropWhile {α : Type} {p : α → Bool} {l : List α} {a : α}
    (h : a ∈ l.dropWhile p) : a ∈ l := by
  induction l with
  | nil => simp [List.dropWhile] at h
  | cons x xs ih =>
      rw [List.dropWhile_cons] at h
      by_cases hp : p x
      · rw [if_pos hp] at h
        exact List.mem_cons_of_mem x (ih h)
      · rw [if_neg hp] at h
        exact h

/-- The head of a non-empty `dropWhile` result falsifies the predicate. -/
theorem dropWhile_head_false {α : Type} {p : α → Bool} {l : List α} {a : α} {rest : List α}
    (h : l.dropWhile p = a :: rest) : p a = false := by
  induction l with
  | nil => simp [List.dropWhile] at h
  | cons x xs ih =>
      rw [List.dropWhile_cons] at h
      by_cases hp : p x
      · rw [if_pos hp] at h
        exact ih h
      · rw [if_neg hp] at h
        cases h
        simpa using hp

/-- The stripped per-position rendering of a zero remainder is empty. -/
theorem strippedFrac_zero (d : Nat) : strippedFrac 0 d = [] := by
  unfold strippedFrac
  have h0 : natDigitsLE 0 = [] := rfl
  rw [h0]
  simp only [List.nil_append, List.length_nil, Nat.sub_zero]
  induction d with
  | zero => rfl
  | succ d ih =>
      rw [List.replicate_succ, List.dropWhile_cons]
      simp [ih]

/-- The fraction-digit list is never empty. -/
theorem fracDigits_ne_nil (r d : Nat) : fracDigits r d ≠ [] := by
  unfold fracDigits
  by_cases h : strippedFrac r d = []
  · simp [h]
  · rw [if_neg h]
    intro hcon
    apply h
    have h2 := congrArg List.reverse hcon
    simpa using h2

/-- Every entry of the fraction-digit list is a decimal digit. -/
theorem mem_fracDigits_lt {r d k : Nat} (hk : k ∈ fracDigits r d) : k < 10 := by
  unfold fracDigits at hk
  by_cases h : strippedFrac r d = []
  · rw [if_pos h] at hk
    simp at hk
    omega
  · rw [if_neg h] at hk
    rw [List.mem_reverse] at hk
    have hk2 := mem_of_mem_dropWhile hk
    rw [List.mem_append] at hk2
    rcases hk2 with hk2 | hk2
    · exact mem_natDigitsLE_lt hk2
    · have := List.eq_of_mem_replicate hk2
      omega

/-- Only a zero remainder produces the single-zero fraction list. -/
theorem fracDigits_eq_single_zero {r d : Nat} (h : fracDigits r d = [0]) : r = 0 := by
  unfold fracDigits at h
  by_cases hemp : strippedFrac r d = []
  · unfold strippedFrac at hemp
    rw [List.dropWhile_eq_nil_iff] at hemp
    apply eq_zero_of_digits_all_zero
    intro x hx
    have hx2 : x ∈ natDigitsLE r ++ List.replicate (d - (natDigitsLE r).length) 0 := by
      rw [List.mem_append]
      left
      rw [natDigitsLE_eq]
      exact hx
    have := hemp x hx2
    simpa using this
  · rw [if_neg hemp] at h
    have hstr : strippedFrac r d = [0] := by
      have := congrArg List.reverse h
      simpa using this
    unfold strippedFrac at hstr
    have := dropWhile_head_false hstr
    simp at this

/-- Formatting a zero balance yields the canonical zero string: a bare
zero for zero decimals, and a zero dot zero otherwise. -/
theorem formatUnits_zero (d : Nat) :
    formatUnits 0 d = if d = 0 then String.mk ['0'] else String.mk ['0', '.', '0'] := by
  by_cases hd : d = 0
  · rw [if_pos hd, hd]
    rfl
  · rw [if_neg hd]
    unfold formatUnits
    rw [if_neg hd]
    have h1 : 0 / 10 ^ d = 0 := Nat.zero_div _
    have h2 : 0 % 10 ^ d = 0 := Nat.zero_mod _
    rw [h1, h2]
    have h3 : fracDigits 0 d = [0] := by
      unfold fracDigits
      rw [if_pos (strippedFrac_zero d)]
    rw [h3]
    rfl

/-- Formatting a non-zero balance never yields a canonical zero string:
the rendered quantity of a non-zero raw balance differs from the
rendering of zero at every decimal precision. -/
theorem formatUnits_ne_zero {b : Nat} (hb : b ≠ 0) (d d' : Nat) :
    formatUnits b d ≠ formatUnits 0 d' := by
  rw [formatUnits_zero]
  have hBare : formatUnits b d ≠ String.mk ['0'] := by
    unfold formatUnits
    by_cases hd : d = 0
    · rw [if_pos hd]
      intro hcon
      have : natDigits b = ['0'] := by
        injection hcon
      exact hb (natDigits_eq_single_zero this)
    · rw [if_neg hd]
      intro hcon
      have hlist : natDigits (b / 10 ^ d) ++ '.' :: (fracDigits (b % 10 ^ d) d).map Nat.digitChar
          = ['0'] := by
        injection hcon
      have hlen := congrArg List.length hlist
      simp at hlen
      obtain ⟨c, cs, hcs⟩ := List.exists_cons_of_ne_nil (natDigits_ne_nil (b / 10 ^ d))
      rw [hcs] at hlen
      simp at hlen
      omega
  have hDot : formatUnits b d ≠ String.mk ['0', '.', '0'] := by
    unfold formatUnits
    by_cases hd : d = 0
    · rw [if_pos hd]
      intro hcon
      have hlist : natDigits b = ['0', '.', '0'] := by
        injection hcon
      have : '.' ∈ natDigits b := by
        rw [hlist]
        simp
      exact dot_not_mem_natDigits b this
    · rw [if_neg hd]
      intro hcon
      have hlist : natDigits (b / 10 ^ d) ++ '.' :: (fracDigits (b % 10 ^ d) d).map Nat.digitChar
          = ['0', '.', '0'] := by
        injection hcon
      obtain ⟨c, cs, hcs⟩ := List.exists_cons_of_ne_nil (natDigits_ne_nil (b / 10 ^ d))
      rw [hcs, List.cons_append] at hlist
      have hc : c = '0' := (List.cons.injEq _ _ _ _ ▸ hlist).1
      have htail : cs ++ '.' :: (fracDigits (b % 10 ^ d) d).map Nat.digitChar = ['.', '0'] :=
        (List.cons.injEq _ _ _ _ ▸ hlist).2
      cases cs with
      | nil =>
          rw [List.nil_append] at htail
          have hfrac : (fracDigits (b % 10 ^ d) d).map Nat.digitChar = ['0'] :=
            (List.cons.injEq _ _ _ _ ▸ htail).2
          have hflen : (fracDigits (b % 10 ^ d) d).length = 1 := by
            have := congrArg List.length hfrac
            simpa using this
          obtain ⟨k, hk⟩ := List.length_eq_one.mp hflen
          rw [hk] at hfrac
          simp at hfrac
          have hklt : k < 10 := mem_fracDigits_lt (by rw [hk]; exact List.mem_singleton.mpr rfl)
          have hk0 : k = 0 := (digitChar_eq_zero_iff k hklt).mp hfrac
          have hrzero : b % 10 ^ d = 0 := fracDigits_eq_single_zero (by rw [hk, hk0])
          have hqzero : b / 10 ^ d = 0 := by
            apply natDigits_eq_single_zero
            rw [hcs, hc]
          have := Nat.div_add_mod b (10 ^ d)
          rw [hqzero, hrzero] at this
          simp at this
          exact hb this.symm
      | cons c2 cs2 =>
          rw [List.cons_append] at htail
          have hc2 : c2 = '.' := (List.cons.injEq _ _ _ _ ▸ htail).1
          have : '.' ∈ natDigits (b / 10 ^ d) := by
            rw [hcs, hc2.symm]
            exact List.mem_cons_of_mem c (List.mem_cons_self c2 cs2)
          exact dot_not_mem_natDigits _ this
  by_cases hd' : d' = 0
  · rw [if_pos hd']
    exact hBare
  · rw [if_neg hd']
    exact hDot

/-- The action log of a wait is the same on both exit paths: arm the
timer, register the listener, then clear the timer and remove the
listener. -/
theorem waitForNetworkChange_snd (target : String) (events : List (Nat × String)) :
    (waitForNetworkChange target events).snd = waitActs := by
  unfold waitForNetworkChange
  by_cases h : scanEvents target events
  · rw [if_pos h]
  · rw [if_neg h]

/-- The outcome of a wait is decided by the event-trace scan. -/
theorem waitForNetworkChange_fst (target : String) (events : List (Nat × String)) :
    (waitForNetworkChange target events).fst
      = if scanEvents target events then Except.ok ()
        else Except.error { code := none, message := networkChangeTimeoutMsg } := by
  unfold waitForNetworkChange
  by_cases h : scanEvents target events
  · rw [if_pos h, if_pos h]
  · rw [if_neg h, if_neg h]

/-- When every matching notification of the trace arrives at or after the
timeout, the scan fails. -/
theorem scanEvents_false_of_late (target : String) (events : List (Nat × String))
    (h : ∀ ev ∈ events, ev.snd = target → NETWORK_CHANGE_TIMEOUT_MS ≤ ev.fst) :
    scanEvents target events = false := by
  induction events with
  | nil => rfl
  | cons ev rest ih =>
      obtain ⟨t, id⟩ := ev
      rw [scanEvents]
      by_cases hid : id == target
      · rw [if_pos hid]
        have hlate := h (t, id) (List.mem_cons_self _ _) (by simpa using hid)
        simp only at hlate
        simp [Nat.not_lt_of_le hlate]
      · rw [if_neg hid]
        exact ih (fun e he hm => h e (List.mem_cons_of_mem _ he) hm)

/-- A successful scan exhibits a matching notification that arrived
strictly before the timeout. -/
theorem scanEvents_true_exists (target : String) (events : List (Nat × String))
    (h : scanEvents target events = true) :
    ∃ ev ∈ events, ev.snd = target ∧ ev.fst < NETWORK_CHANGE_TIMEOUT_MS := by
  induction events with
  | nil => simp [scanEvents] at h
  | cons ev rest ih =>
      obtain ⟨t, id⟩ := ev
      rw [scanEvents] at h
      by_cases hid : id == target
      · rw [if_pos hid] at h
        refine ⟨(t, id), List.mem_cons_self _ _, by simpa using hid, by simpa using h⟩
      · rw [if_neg hid] at h
        obtain ⟨e, he, hm, ht⟩ := ih h
        exact ⟨e, List.mem_cons_of_mem _ he, hm, ht⟩

/-- A successful switch hands back a provider bound to the target chain. -/
theorem switchChain_ok_provider {w : Wallet} {chainId p : String}
    (h : (switchChain w chainId).fst = Except.ok p) : p = chainId := by
  unfold switchChain at h
  split at h
  all_goals try split at h
  all_goals try split at h
  all_goals try split at h
  all_goals try split at h
  all_goals simp_all

/-- Unrolling the registry fold of `getAccountHoldings` over any chain
list and accumulator: the fold appends exactly the per-chain
contributions, in list order. -/
theorem getAccountHoldings_foldl_aux (w : Wallet) (address : String) (l : List ChainInfo)
    (init : List TokenHolding) :
    List.foldl
      (fun holdings chain =>
        match (switchChain w chain.chainId).fst with
        | Except.ok provider =>
            holdings
              ++ (getNativeTokenBalance w provider address chain).toList
              ++ (((getCommonTokensForChain chain.chainId).map
                    (fun token => getTokenBalance w provider token.address address chain.name)).filterMap id)
        | Except.error _ => holdings)
      init l = init ++ specAggregate w address l := by
  induction l generalizing init with
  | nil => simp [specAggregate]
  | cons chain rest ih =>
      rw [List.foldl_cons, ih, specAggregate, ← List.append_assoc]
      congr 1
      cases hsw : (switchChain w chain.chainId).fst with
      | ok provider =>
          have hp : provider = chain.chainId := switchChain_ok_provider hsw
          subst hp
          simp only [chainContribution, hsw, exceptOk, if_true]
          rw [chainHoldings]
          rw [List.append_assoc]
      | error e =>
          simp only [chainContribution, hsw, exceptOk, Bool.false_eq_true, if_false,
            List.append_nil]

/-- The aggregator equals the spec-side per-chain description over the
full registry. -/
theorem getAccountHoldings_eq_spec (w : Wallet) (address : String) :
    getAccountHoldings w address = specAggregate w address SUPPORTED_CHAINS := by
  unfold getAccountHoldings
  rw [getAccountHoldings_foldl_aux]
  rw [List.nil_append]

/-- Chains whose switch failed contribute nothing: restricting the spec
aggregate to the successfully switched chains changes nothing. -/
theorem specAggregate_filter (w : Wallet) (address : String) (l : List ChainInfo) :
    specAggregate w address (l.filter (fun c => exceptOk (switchChain w c.chainId).fst))
      = specAggregate w address l := by
  induction l with
  | nil => rfl
  | cons chain rest ih =>
      rw [List.filter_cons]
      by_cases hc : exceptOk (switchChain w chain.chainId).fst = true
      · rw [if_pos hc, specAggregate, specAggregate, ih]
      · rw [if_neg hc, specAggregate, ih]
        have hnil : chainContribution w address chain = [] := by
          rw [chainContribution, if_neg hc]
        rw [hnil, List.nil_append]

/-- Every holding of the spec aggregate comes from some chain of the
list. -/
theorem mem_specAggregate {w : Wallet} {address : String} {l : List ChainInfo}
    {h : TokenHolding} (hm : h ∈ specAggregate w address l) :
    ∃ c ∈ l, h ∈ chainContribution w address c := by
  induction l with
  | nil => simp [specAggregate] at hm
  | cons chain rest ih =>
      rw [specAggregate, List.mem_append] at hm
      rcases hm with hm | hm
      · exact ⟨chain, List.mem_cons_self _ _, hm⟩
      · obtain ⟨c, hc, hmc⟩ := ih hm
        exact ⟨c, List.mem_cons_of_mem _ hc, hmc⟩

/-- A chain of the list whose switch succeeded has its holdings appear
contiguously inside the spec aggregate. -/
theorem specAggregate_surrounds {w : Wallet} {address : String} {l : List ChainInfo}
    {c : ChainInfo} (hc : c ∈ l) (hok : exceptOk (switchChain w c.chainId).fst = true) :
    ∃ pre post, specAggregate w address l = pre ++ chainHoldings w address c ++ post := by
  induction l with
  | nil => simp at hc
  | cons chain rest ih =>
      rcases List.mem_cons.mp hc with heq | hmem
      · subst heq
        refine ⟨[], specAggregate w address rest, ?_⟩
        rw [specAggregate, chainContribution, if_pos hok, List.nil_append]
      · obtain ⟨pre, post, hpp⟩ := ih hmem
        refine ⟨chainContribution w address chain ++ pre, post, ?_⟩
        rw [specAggregate, hpp]
        simp [List.append_assoc]

/-- Provenance of a native holding: it records a non-zero raw balance
formatted at the registry's native decimals. -/
theorem getNativeTokenBalance_some {w : Wallet} {p a : String} {chain : ChainInfo}
    {h : TokenHolding} (hs : getNativeTokenBalance w p a chain = some h) :
    ∃ b, w.getBalance p a = Except.ok b ∧ b ≠ 0 ∧
      h = { symbol := chain.nativeSymbol, chain := chain.name,
            quantity := formatUnits b chain.nativeDecimals, selected := some false } := by
  unfold getNativeTokenBalance at hs
  split at hs
  · split at hs
    · cases hs
    · rename_i balance heq h0
      exact ⟨balance, heq, h0, (Option.some.inj hs).symm⟩
  · cases hs

/-- Provenance of a token holding: it records a non-zero raw balance
formatted at the queried decimals, labelled with the queried symbol. -/
theorem getTokenBalance_some {w : Wallet} {p tok a cn : String} {h : TokenHolding}
    (hs : getTokenBalance w p tok a cn = some h) :
    ∃ b sym dec, (w.contractAt p tok).balanceOf a = Except.ok b
      ∧ (w.contractAt p tok).symbol = Except.ok sym
      ∧ (w.contractAt p tok).decimals = Except.ok dec
      ∧ b ≠ 0
      ∧ h = { symbol := sym, chain := cn, quantity := formatUnits b dec,
              selected := some false } := by
  unfold getTokenBalance at hs
  split at hs
  · split at hs
    · cases hs
    · rename_i balance sym dec hb hsym hdec h0
      exact ⟨balance, sym, dec, hb, hsym, hdec, h0, (Option.some.inj hs).symm⟩
  · cases hs

/-- Every holding of one chain's contribution carries the formatting of
some non-zero raw balance. -/
theorem mem_chainHoldings_quantity {w : Wallet} {address : String} {c : ChainInfo}
    {h : TokenHolding} (hm : h ∈ chainHoldings w address c) :
    ∃ b d, b ≠ 0 ∧ h.quantity = formatUnits b d := by
  unfold chainHoldings at hm
  rw [List.mem_append] at hm
  rcases hm with hm | hm
  · have hsome : getNativeTokenBalance w c.chainId address c = some h := by
      rw [Option.mem_toList, Option.mem_def] at hm
      exact hm
    obtain ⟨b, _, hb0, hh⟩ := getNativeTokenBalance_some hsome
    exact ⟨b, c.nativeDecimals, hb0, by rw [hh]⟩
  · rw [List.mem_filterMap] at hm
    obtain ⟨x, hx, hid⟩ := hm
    rw [List.mem_map] at hx
    obtain ⟨t, ht, htx⟩ := hx
    have hsome : getTokenBalance w c.chainId t.address address c.name = some h := by
      rw [htx]
      exact hid
    obtain ⟨b, sym, dec, _, _, _, hb0, hh⟩ := getTokenBalance_some hsome
    exact ⟨b, dec, hb0, by rw [hh]⟩

/-- Exhaustive shape analysis of a switch call's action log: no actions
before reaching the wait step (and then the call failed), one balanced
wait log, or an add-network request optionally followed by one balanced
wait log (no wait when the add-network request failed). -/
theorem switchChain_snd_cases (w : Wallet) (cid : String) :
    ((switchChain w cid).snd = [] ∧ exceptOk (switchChain w cid).fst = false)
    ∨ (switchChain w cid).snd = waitActs
    ∨ (∃ c, (switchChain w cid).snd = [addChainAction c]
        ∧ exceptOk (switchChain w cid).fst = false)
    ∨ (∃ c, (switchChain w cid).snd = addChainAction c :: waitActs) := by
  unfold switchChain
  split
  · split
    · rename_i u acts heq
      have hacts : acts = waitActs := by
        have h2 := waitForNetworkChange_snd cid (w.waitEvents cid false)
        rw [heq] at h2
        exact h2
      subst hacts
      exact Or.inr (Or.inl rfl)
    · rename_i e acts heq
      have hacts : acts = waitActs := by
        have h2 := waitForNetworkChange_snd cid (w.waitEvents cid false)
        rw [heq] at h2
        exact h2
      subst hacts
      exact Or.inr (Or.inl rfl)
  · split
    · split
      · split
        · split
          · rename_i u acts heq
            have hacts : acts = waitActs := by
              have h2 := waitForNetworkChange_snd cid (w.waitEvents cid true)
              rw [heq] at h2
              exact h2
            subst hacts
            exact Or.inr (Or.inr (Or.inr ⟨_, rfl⟩))
          · rename_i e2 acts heq
            have hacts : acts = waitActs := by
              have h2 := waitForNetworkChange_snd cid (w.waitEvents cid true)
              rw [heq] at h2
              exact h2
            subst hacts
            exact Or.inr (Or.inr (Or.inr ⟨_, rfl⟩))
        · exact Or.inr (Or.inr (Or.inl ⟨_, rfl, rfl⟩))
      · exact Or.inl ⟨rfl, rfl⟩
    · exact Or.inl ⟨rfl, rfl⟩

/-- The add-network request parameters never count as listener or timer
actions. -/
theorem countAct_addChainAction (a : WalletAction) (c : ChainInfo) (l : List WalletAction)
    (hne : ∀ c2 : ChainInfo, addChainAction c2 ≠ a) :
    countAct a (addChainAction c :: l) = countAct a l := by
  rw [countAct, if_neg (hne c), Nat.zero_add]

/-- The happy path of the add-network fallback: with an unrecognized-code
switch rejection, a registry hit, a fulfilled add-network request and a
prompt matching notification, the switch succeeds with a provider bound
to the target, after one add-network request and one balanced wait. -/
theorem switchChain_addnetwork_aux (w : Wallet) (chain : ChainInfo) (e : JsError)
    (hfind : SUPPORTED_CHAINS.find? (fun c => c.chainId == chain.chainId) = some chain)
    (hsw : w.switchReq chain.chainId = some e)
    (hcode : e.code = some 4902)
    (hadd : w.addReq chain.chainId = none)
    (hscan : scanEvents chain.chainId (w.waitEvents chain.chainId true) = true) :
    (switchChain w chain.chainId).fst = Except.ok chain.chainId
    ∧ (switchChain w chain.chainId).snd = addChainAction chain :: waitActs := by
  have hwait : waitForNetworkChange chain.chainId (w.waitEvents chain.chainId true)
      = (Except.ok (), waitActs) := by
    unfold waitForNetworkChange
    rw [if_pos hscan]
  unfold switchChain
  split
  · rename_i heq
    rw [hsw] at heq
    cases heq
  · rename_i e2 heq
    rw [hsw] at heq
    injection heq with h
    subst h
    rw [if_pos hcode]
    split
    · rename_i chain2 hfeq
      rw [hfind] at hfeq
      injection hfeq with h2
      subst h2
      split
      · split
        · rename_i u acts hweq
          rw [hwait] at hweq
          injection hweq with h3 h4
          subst h4
          exact ⟨rfl, rfl⟩
        · rename_i e3 acts hweq
          rw [hwait] at hweq
          injection hweq with h3 h4
          cases h3
      · rename_i e3 haeq
        rw [hadd] at haeq
        cases haeq
    · rename_i hfeq
      rw [hfind] at hfeq
      cases hfeq

/-- Every error surfaced by `connectMetaMask` is a `MetaMaskError`. -/
theorem connectMetaMask_error_shape (env : Env) (e : JsException)
    (h : connectMetaMask env = Except.error e) :
    ∃ m, e = JsException.metaMaskError m := by
  unfold connectMetaMask at h
  split at h
  · cases h
    exact ⟨_, rfl⟩
  · split at h
    · cases h
      exact ⟨_, rfl⟩
    · split at h
      · cases h
      · split at h
        · cases h
          exact ⟨_, rfl⟩
        · split at h
          · cases h
            exact ⟨_, rfl⟩
          · cases h
            exact ⟨_, rfl⟩

/-- Any value thrown inside the `try` block of `connectMetaMask` is
rewrapped by the `catch`: the user-rejection message for code 4001,
otherwise the original message, with the generic fallback substituted
for an empty message. -/
theorem connectMetaMask_wraps (env : Env) (w : Wallet) (exc : JsException)
    (hwin : env.windowDefined = true) (heth : env.ethereum = some w)
    (htry : connectTryBlock w = Except.error exc) :
    connectMetaMask env = Except.error (JsException.metaMaskError
      (if exceptionCode exc = some 4001 then userRejectedMsg
       else if exceptionMessage exc = "" then failedConnectMsg
       else exceptionMessage exc)) := by
  unfold connectMetaMask
  split
  · rename_i hcon
    rw [hwin] at hcon
    cases hcon
  · split
    · rename_i heq
      rw [heth] at heq
      cases heq
    · rename_i w2 heq
      rw [heth] at heq
      injection heq with hww
      subst hww
      split
      · rename_i accounts htry2
        rw [htry] at htry2
        cases htry2
      · rename_i exc2 htry2
        rw [htry] at htry2
        injection htry2 with hee
        subst hee
        by_cases hc : exceptionCode exc = some 4001
        · rw [if_pos hc, if_pos hc]
        · rw [if_neg hc, if_neg hc]
          by_cases hm : exceptionMessage exc = ""
          · rw [if_pos hm, if_pos hm]
          · rw [if_neg hm, if_neg hm]

/-- With the environment checks passed and a non-empty authorized list,
`connectMetaMask` returns one `Account` per authorized address, in
wallet order, each holding a complete aggregation. -/
theorem connectMetaMask_ok (env : Env) (w : Wallet) (addrs : List String)
    (hwin : env.windowDefined = true) (heth : env.ethereum = some w)
    (hacc : w.requestAccounts = Except.ok addrs) (hne : addrs ≠ []) :
    connectMetaMask env = Except.ok (addrs.map
      (fun a => { address := a, holdings := getAccountHoldings w a })) := by
  have htry : connectTryBlock w = Except.ok (addrs.map
      (fun a => { address := a, holdings := getAccountHoldings w a })) := by
    unfold connectTryBlock
    split
    · rename_i e heq
      rw [hacc] at heq
      cases heq
    · rename_i accounts heq
      rw [hacc] at heq
      injection heq with haa
      subst haa
      rw [if_neg (by rw [List.isEmpty_iff]; exact hne)]
  unfold connectMetaMask
  split
  · rename_i hcon
    rw [hwin] at hcon
    cases hcon
  · split
    · rename_i heq
      rw [heth] at heq
      cases heq
    · rename_i w2 heq
      rw [heth] at heq
      injection heq with hww
      subst hww
      split
      · rename_i accounts2 htry2
        rw [htry] at htry2
        injection htry2 with haa
        subst haa
        rfl
      · rename_i exc htry2
        rw [htry] at htry2
        cases htry2

/-- A successful token read on a registry chain whose switch succeeded
contributes its holding to the final aggregation. -/
theorem tokenHolding_mem_agg (w : Wallet) (a : String) (chain : ChainInfo) (t : TokenRef)
    (h2 : TokenHolding) (hchain : chain ∈ SUPPORTED_CHAINS)
    (ht : t ∈ getCommonTokensForChain chain.chainId)
    (hok : exceptOk (switchChain w chain.chainId).fst = true)
    (hsome : getTokenBalance w chain.chainId t.address a chain.name = some h2) :
    h2 ∈ getAccountHoldings w a := by
  rw [getAccountHoldings_eq_spec]
  obtain ⟨pre, post, hpp⟩ := specAggregate_surrounds hchain hok
  rw [hpp]
  rw [List.mem_append]
  left
  rw [List.mem_append]
  right
  unfold chainHoldings
  rw [List.mem_append]
  right
  rw [List.mem_filterMap]
  exact ⟨some h2, List.mem_map.mpr ⟨t, ht, by rw [hsome]⟩, rfl⟩

/-- A fulfilled native read with a non-zero balance produces the holding
built from the registry entry and the formatted balance. -/
theorem getNativeTokenBalance_pos (w : Wallet) (p a : String) (chain : ChainInfo) (b : Nat)
    (hb : w.getBalance p a = Except.ok b) (hb0 : b ≠ 0) :
    getNativeTokenBalance w p a chain
      = some { symbol := chain.nativeSymbol, chain := chain.name,
               quantity := formatUnits b chain.nativeDecimals, selected := some false } := by
  unfold getNativeTokenBalance
  split
  · rename_i b2 heq
    rw [hb] at heq
    injection heq with h
    subst h
    rw [if_neg hb0]
  · rename_i e heq
    rw [hb] at heq
    cases heq

/-- Three fulfilled token calls with a non-zero balance produce the
holding built from the queried symbol and decimals. -/
theorem getTokenBalance_pos (w : Wallet) (p tok a cn : String) (b : Nat) (sym : String)
    (dec : Nat) (hb : (w.contractAt p tok).balanceOf a = Except.ok b)
    (hsym : (w.contractAt p tok).symbol = Except.ok sym)
    (hdec : (w.contractAt p tok).decimals = Except.ok dec) (hb0 : b ≠ 0) :
    getTokenBalance w p tok a cn
      = some { symbol := sym, chain := cn, quantity := formatUnits b dec,
               selected := some false } := by
  unfold getTokenBalance
  split
  · rename_i b2 sym2 dec2 hb2 hsym2 hdec2
    rw [hb] at hb2
    rw [hsym] at hsym2
    rw [hdec] at hdec2
    injection hb2 with h1
    injection hsym2 with h2
    injection hdec2 with h3
    subst h1
    subst h2
    subst h3
    rw [if_neg hb0]
  · rename_i hno
    exact (hno b sym dec hb hsym hdec).elim

/-- Every chain identifier outside the Ethereum and BSC entries has an
empty known-token table. -/
theorem getCommonTokensForChain_empty (cid : String) (h1 : cid ≠ "0x1")
    (h38 : cid ≠ "0x38") : getCommonTokensForChain cid = [] := by
  unfold getCommonTokensForChain
  have h1b : (cid == "0x1") = false := beq_eq_false_iff_ne.mpr h1
  have h38b : (cid == "0x38") = false := beq_eq_false_iff_ne.mpr h38
  rw [if_neg (by rw [h1b]; exact Bool.false_ne_true),
    if_neg (by rw [h38b]; exact Bool.false_ne_true)]

/-- One Ether of raw balance at 18 decimals renders as one. -/
theorem formatUnits_oneEther : formatUnits 1000000000000000000 18 = oneStr := by
  decide

/-- Half a million raw units at 6 decimals render as one half. -/
theorem formatUnits_half : formatUnits 500000 6 = halfStr := by
  decide

/-- C1: for every address and wallet behaviour, `getAccountHoldings`
equals the concatenation, in registry order, of the holdings of exactly
those networks whose switch succeeded — a network whose switch fails
(for any reason, including a network-change timeout) is skipped entirely
while every other reachable network's holdings are still returned, and
the aggregation itself never fails. -/
theorem aggregate_skips_failed_networks (w : Wallet) (a : String) :
    getAccountHoldings w a
      = specAggregate w a (SUPPORTED_CHAINS.filter
          (fun c => exceptOk (switchChain w c.chainId).fst)) := by
  rw [getAccountHoldings_eq_spec, specAggregate_filter]

/-- C6: the holdings list preserves registry iteration order (the spec
aggregate walks `SUPPORTED_CHAINS` front to back), and within each
network the native holding (when present) precedes the token holdings,
which follow the order of the known-token table. -/
theorem aggregate_preserves_order (w : Wallet) (a : String) :
    getAccountHoldings w a = specAggregate w a SUPPORTED_CHAINS
    ∧ ∀ chain : ChainInfo, chainHoldings w a chain
        = (getNativeTokenBalance w chain.chainId a chain).toList
          ++ (((getCommonTokensForChain chain.chainId).map
                (fun token => getTokenBalance w chain.chainId token.address a chain.name)).filterMap id) :=
  ⟨getAccountHoldings_eq_spec w a, fun _ => rfl⟩

/-- C2: a zero raw balance makes the native read and the token read
return `none`, and consequently no holding ever aggregated carries a
zero quantity: every quantity differs from the rendering of zero at
every decimal precision. -/
theorem no_zero_quantity_holdings (w : Wallet) (p a tok cn : String) (chain : ChainInfo)
    (h : TokenHolding) (d : Nat) :
    (w.getBalance p a = Except.ok 0 → getNativeTokenBalance w p a chain = none)
    ∧ ((w.contractAt p tok).balanceOf a = Except.ok 0 → getTokenBalance w p tok a cn = none)
    ∧ (h ∈ getAccountHoldings w a → h.quantity ≠ formatUnits 0 d) := by
  refine ⟨?_, ?_, ?_⟩
  · intro h0
    unfold getNativeTokenBalance
    rw [h0]
    rfl
  · intro h0
    unfold getTokenBalance
    rw [h0]
    cases (w.contractAt p tok).symbol <;> cases (w.contractAt p tok).decimals <;> rfl
  · intro hmem
    rw [getAccountHoldings_eq_spec] at hmem
    obtain ⟨c, hc, hcon⟩ := mem_specAggregate hmem
    have hch : h ∈ chainHoldings w a c := by
      rw [chainContribution] at hcon
      by_cases hok : exceptOk (switchChain w c.chainId).fst = true
      · rw [if_pos hok] at hcon
        exact hcon
      · rw [if_neg hok] at hcon
        simp at hcon
    obtain ⟨b, b_dec, hb0, hq⟩ := mem_chainHoldings_quantity hch
    rw [hq]
    exact formatUnits_ne_zero hb0 b_dec d

/-- Witness for C2 at the demonstration wallet: the first holding it
aggregates has a non-zero quantity string. -/
theorem no_zero_quantity_holdings_witness :
    demoHolding.quantity ≠ formatUnits 0 3 :=
  (no_zero_quantity_holdings demoWallet demoAddr demoAddr demoAddr demoAddr ETH_MAINNET
    demoHolding 3).2.2 (by decide)

/-- When the switch request is fulfilled, the call reaches the wait step
and its action log is exactly one balanced wait. -/
theorem switchChain_snd_of_switchReq_none (w : Wallet) (cid : String)
    (h : w.switchReq cid = none) : (switchChain w cid).snd = waitActs := by
  unfold switchChain
  split
  · split
    · rename_i u acts heq
      have h2 := waitForNetworkChange_snd cid (w.waitEvents cid false)
      rw [heq] at h2
      exact h2
    · rename_i e acts heq
      have h2 := waitForNetworkChange_snd cid (w.waitEvents cid false)
      rw [heq] at h2
      exact h2
  · rename_i e heq
    rw [h] at heq
    cases heq

/-- When the switch request rejects with code 4902, the registry lookup
hits, and the add-network request is fulfilled, the call reaches the
retry wait and its action log is the add-network request followed by one
balanced wait. -/
theorem switchChain_snd_of_retry (w : Wallet) (cid : String) (e : JsError) (chain : ChainInfo)
    (hsw : w.switchReq cid = some e) (hcode : e.code = some 4902)
    (hfind : SUPPORTED_CHAINS.find? (fun c => c.chainId == cid) = some chain)
    (hadd : w.addReq cid = none) :
    (switchChain w cid).snd = addChainAction chain :: waitActs := by
  unfold switchChain
  split
  · rename_i heq
    rw [hsw] at heq
    cases heq
  · rename_i e2 heq
    rw [hsw] at heq
    injection heq with h
    subst h
    rw [if_pos hcode]
    split
    · rename_i chain2 hfeq
      rw [hfind] at hfeq
      injection hfeq with h2
      subst h2
      split
      · split
        · rename_i u acts hweq
          have h3 := waitForNetworkChange_snd cid (w.waitEvents cid true)
          rw [hweq] at h3
          have h4 : acts = waitActs := h3
          rw [h4]
        · rename_i e3 acts hweq
          have h3 := waitForNetworkChange_snd cid (w.waitEvents cid true)
          rw [hweq] at h3
          have h4 : acts = waitActs := h3
          rw [h4]
      · rename_i e3 haeq
        rw [hadd] at haeq
        cases haeq
    · rename_i hfeq
      rw [hfind] at hfeq
      cases hfeq

/-- When the switch request rejects and the call exits before the wait
step — a non-4902 code, a registry miss, or a rejected add-network
request — the action log holds at most the add-network request and no
listener or timer action. -/
theorem switchChain_snd_of_prewait_exit (w : Wallet) (cid : String) (e : JsError)
    (hsw : w.switchReq cid = some e)
    (hpre : e.code ≠ some 4902
      ∨ SUPPORTED_CHAINS.find? (fun c => c.chainId == cid) = none
      ∨ ∃ e2, w.addReq cid = some e2) :
    (switchChain w cid).snd = [] ∨ ∃ c, (switchChain w cid).snd = [addChainAction c] := by
  unfold switchChain
  split
  · rename_i heq
    rw [hsw] at heq
    cases heq
  · rename_i e2 heq
    rw [hsw] at heq
    injection heq with h
    subst h
    by_cases hcode : e.code = some 4902
    · rw [if_pos hcode]
      rcases hpre with hp | hp | ⟨e3, hp⟩
      · exact absurd hcode hp
      · split
        · rename_i chain2 hfeq
          rw [hp] at hfeq
          cases hfeq
        · exact Or.inl rfl
      · split
        · rename_i chain2 hfeq
          split
          · rename_i haeq
            rw [hp] at haeq
            cases haeq
          · exact Or.inr ⟨chain2, rfl⟩
        · exact Or.inl rfl
    · rw [if_neg hcode]
      exact Or.inl rfl

/-- Counterexample to C3 as stated: on the add-network-failure exit path
(switch request rejected with code 4902, add-network request then
rejected), `switchChain` exits before ever reaching the wait step, so
the `chainChanged` listener is registered zero times on that call — not
exactly once. -/
theorem switch_listener_exactly_once_cx :
    addFailWallet.switchReq ETH_MAINNET.chainId = some unrecognizedErr
    ∧ addFailWallet.addReq ETH_MAINNET.chainId = some addRejectErr
    ∧ (switchChain addFailWallet ETH_MAINNET.chainId).fst = Except.error addRejectErr
    ∧ countAct WalletAction.addListener (switchChain addFailWallet ETH_MAINNET.chainId).snd
        ≠ 1 := by
  refine ⟨rfl, rfl, ?_, ?_⟩ <;> decide

/-- C3 as amended: a switch call never lets listeners accumulate — on
every exit path the listener registrations balance the deregistrations
and the armed timers balance the cancellations, and at most one listener
is ever registered.  The paths that reach the wait step register and
deregister the listener exactly once whether the wait resolves or times
out: this holds whenever the switch request is fulfilled (its wait may
still time out), and whenever a 4902 rejection finds its registry entry
and the add-network request is fulfilled (the retry wait may still time
out).  The exits taken before the wait step — a non-4902 rejection, a
registry miss, or a rejected add-network request — register and
deregister zero listeners.  In particular every successful switch
registered the listener exactly once. -/
theorem switch_listener_discipline (w : Wallet) (cid : String) :
    countAct WalletAction.addListener (switchChain w cid).snd
        = countAct WalletAction.removeListener (switchChain w cid).snd
    ∧ countAct WalletAction.addListener (switchChain w cid).snd ≤ 1
    ∧ countAct WalletAction.setTimer (switchChain w cid).snd
        = countAct WalletAction.clearTimer (switchChain w cid).snd
    ∧ (w.switchReq cid = none →
        countAct WalletAction.addListener (switchChain w cid).snd = 1
        ∧ countAct WalletAction.removeListener (switchChain w cid).snd = 1)
    ∧ (∀ e, w.switchReq cid = some e → e.code = some 4902 →
        (SUPPORTED_CHAINS.find? (fun c => c.chainId == cid)).isSome = true →
        w.addReq cid = none →
        countAct WalletAction.addListener (switchChain w cid).snd = 1
        ∧ countAct WalletAction.removeListener (switchChain w cid).snd = 1)
    ∧ (∀ e, w.switchReq cid = some e →
        (e.code ≠ some 4902
          ∨ SUPPORTED_CHAINS.find? (fun c => c.chainId == cid) = none
          ∨ ∃ e2, w.addReq cid = some e2) →
        countAct WalletAction.addListener (switchChain w cid).snd = 0
        ∧ countAct WalletAction.removeListener (switchChain w cid).snd = 0)
    ∧ (exceptOk (switchChain w cid).fst = true →
        countAct WalletAction.addListener (switchChain w cid).snd = 1) := by
  have hbal : countAct WalletAction.addListener (switchChain w cid).snd
        = countAct WalletAction.removeListener (switchChain w cid).snd
      ∧ countAct WalletAction.addListener (switchChain w cid).snd ≤ 1
      ∧ countAct WalletAction.setTimer (switchChain w cid).snd
          = countAct WalletAction.clearTimer (switchChain w cid).snd
      ∧ (exceptOk (switchChain w cid).fst = true →
          countAct WalletAction.addListener (switchChain w cid).snd = 1) := by
    rcases switchChain_snd_cases w cid with ⟨hsnd, hfst⟩ | hsnd | ⟨c, hsnd, hfst⟩ | ⟨c, hsnd⟩
    · rw [hsnd]
      refine ⟨rfl, by decide, rfl, ?_⟩
      intro hok
      rw [hok] at hfst
      cases hfst
    · rw [hsnd]
      exact ⟨by decide, by decide, by decide, fun _ => by decide⟩
    · rw [hsnd]
      have hadd := countAct_addChainAction WalletAction.addListener c []
        (fun c2 hcon => WalletAction.noConfusion hcon)
      have hrem := countAct_addChainAction WalletAction.removeListener c []
        (fun c2 hcon => WalletAction.noConfusion hcon)
      have hset := countAct_addChainAction WalletAction.setTimer c []
        (fun c2 hcon => WalletAction.noConfusion hcon)
      have hclr := countAct_addChainAction WalletAction.clearTimer c []
        (fun c2 hcon => WalletAction.noConfusion hcon)
      refine ⟨by rw [hadd, hrem]; rfl, by rw [hadd]; decide, by rw [hset, hclr]; rfl, ?_⟩
      intro hok
      rw [hok] at hfst
      cases hfst
    · rw [hsnd]
      have hadd := countAct_addChainAction WalletAction.addListener c waitActs
        (fun c2 hcon => WalletAction.noConfusion hcon)
      have hrem := countAct_addChainAction WalletAction.removeListener c waitActs
        (fun c2 hcon => WalletAction.noConfusion hcon)
      have hset := countAct_addChainAction WalletAction.setTimer c waitActs
        (fun c2 hcon => WalletAction.noConfusion hcon)
      have hclr := countAct_addChainAction WalletAction.clearTimer c waitActs
        (fun c2 hcon => WalletAction.noConfusion hcon)
      refine ⟨?_, ?_, ?_, fun _ => ?_⟩
      · rw [hadd, hrem]
        decide
      · rw [hadd]
        decide
      · rw [hset, hclr]
        decide
      · rw [hadd]
        decide
  refine ⟨hbal.1, hbal.2.1, hbal.2.2.1, ?_, ?_, ?_, hbal.2.2.2⟩
  · intro hnone
    rw [switchChain_snd_of_switchReq_none w cid hnone]
    exact ⟨by decide, by decide⟩
  · intro e hsw hcode hfindSome hadd
    obtain ⟨chain, hfind⟩ := Option.isSome_iff_exists.mp hfindSome
    rw [switchChain_snd_of_retry w cid e chain hsw hcode hfind hadd]
    have h1 := countAct_addChainAction WalletAction.addListener chain waitActs
      (fun c2 hcon => WalletAction.noConfusion hcon)
    have h2 := countAct_addChainAction WalletAction.removeListener chain waitActs
      (fun c2 hcon => WalletAction.noConfusion hcon)
    exact ⟨by rw [h1]; decide, by rw [h2]; decide⟩
  · intro e hsw hpre
    rcases switchChain_snd_of_prewait_exit w cid e hsw hpre with hsnd | ⟨c, hsnd⟩
    · rw [hsnd]
      exact ⟨rfl, rfl⟩
    · rw [hsnd]
      have h1 := countAct_addChainAction WalletAction.addListener c []
        (fun c2 hcon => WalletAction.noConfusion hcon)
      have h2 := countAct_addChainAction WalletAction.removeListener c []
        (fun c2 hcon => WalletAction.noConfusion hcon)
      exact ⟨by rw [h1]; rfl, by rw [h2]; rfl⟩

/-- Witness for the amended C3, exercising the timeout path: a wallet
that fulfils the switch request but never emits a notification times
out, yet still registered and deregistered the listener exactly once;
the demonstration wallet's successful switch does the same. -/
theorem switch_listener_discipline_witness :
    (countAct WalletAction.addListener (switchChain timeoutWallet ETH_MAINNET.chainId).snd = 1
      ∧ countAct WalletAction.removeListener
          (switchChain timeoutWallet ETH_MAINNET.chainId).snd = 1)
    ∧ (switchChain timeoutWallet ETH_MAINNET.chainId).fst
        = Except.error { code := none, message := networkChangeTimeoutMsg }
    ∧ countAct WalletAction.addListener (switchChain demoWallet ETH_MAINNET.chainId).snd = 1 :=
  ⟨(switch_listener_discipline timeoutWallet ETH_MAINNET.chainId).2.2.2.1 rfl,
   by decide,
   (switch_listener_discipline demoWallet ETH_MAINNET.chainId).2.2.2.2.2.2 (by decide)⟩

/-- C4: the wait step races the matching `chainChanged` notification
against the fixed 3000 ms timeout — when every matching notification is
late (or absent), it fails with exactly the network-change-timeout error
(no other error kind, no success), and conversely it only succeeds when
a matching notification arrived strictly before the timeout. -/
theorem wait_times_out (target : String) (events : List (Nat × String)) :
    ((∀ ev ∈ events, ev.snd = target → NETWORK_CHANGE_TIMEOUT_MS ≤ ev.fst) →
      (waitForNetworkChange target events).fst
        = Except.error { code := none, message := networkChangeTimeoutMsg })
    ∧ ((waitForNetworkChange target events).fst = Except.ok () →
      ∃ ev ∈ events, ev.snd = target ∧ ev.fst < NETWORK_CHANGE_TIMEOUT_MS) := by
  constructor
  · intro hlate
    have hfalse := scanEvents_false_of_late target events hlate
    rw [waitForNetworkChange_fst, if_neg (by rw [hfalse]; exact Bool.false_ne_true)]
  · intro hok
    rw [waitForNetworkChange_fst] at hok
    by_cases hscan : scanEvents target events = true
    · exact scanEvents_true_exists target events hscan
    · rw [if_neg hscan] at hok
      cases hok

/-- Witness for C4: with the only matching notification arriving at
5000 ms, the wait fails with the network-change-timeout error. -/
theorem wait_times_out_witness :
    (waitForNetworkChange ETH_MAINNET.chainId lateEvents).fst
      = Except.error { code := none, message := networkChangeTimeoutMsg } :=
  (wait_times_out ETH_MAINNET.chainId lateEvents).1 (by decide)

/-- C5: when the switch request rejects with the unrecognized-network
code 4902 for a registered chain, `switchChain` issues an add-network
request carrying the chain's display name, RPC endpoint, native symbol
and native decimals, retries the wait, and on success returns a fresh
provider bound to the target — so that chain's holdings still appear,
contiguously, in the final aggregation. -/
theorem switch_addnetwork_fallback (w : Wallet) (chain : ChainInfo) (a : String) (e : JsError)
    (hchain : chain ∈ SUPPORTED_CHAINS)
    (hsw : w.switchReq chain.chainId = some e)
    (hcode : e.code = some 4902)
    (hadd : w.addReq chain.chainId = none)
    (hscan : scanEvents chain.chainId (w.waitEvents chain.chainId true) = true) :
    (switchChain w chain.chainId).fst = Except.ok chain.chainId
    ∧ WalletAction.addChainReq chain.chainId chain.name chain.rpc chain.nativeSymbol
        chain.nativeDecimals ∈ (switchChain w chain.chainId).snd
    ∧ ∃ pre post, getAccountHoldings w a = pre ++ chainHoldings w a chain ++ post := by
  have hfind : SUPPORTED_CHAINS.find? (fun c => c.chainId == chain.chainId) = some chain := by
    have h4 := hchain
    simp only [SUPPORTED_CHAINS, List.mem_cons, List.not_mem_nil, or_false] at h4
    rcases h4 with rfl | rfl | rfl | rfl <;> decide
  obtain ⟨hfst, hsnd⟩ := switchChain_addnetwork_aux w chain e hfind hsw hcode hadd hscan
  refine ⟨hfst, ?_, ?_⟩
  · rw [hsnd]
    exact List.mem_cons_self _ _
  · rw [getAccountHoldings_eq_spec]
    exact specAggregate_surrounds hchain (by rw [hfst]; rfl)

/-- Witness for C5: a wallet that rejects every switch with code 4902
but accepts add-network requests still succeeds on Ethereum and keeps
its holdings in the aggregation. -/
theorem switch_addnetwork_fallback_witness :
    (switchChain addOkWallet ETH_MAINNET.chainId).fst = Except.ok ETH_MAINNET.chainId
    ∧ WalletAction.addChainReq ETH_MAINNET.chainId ETH_MAINNET.name ETH_MAINNET.rpc
        ETH_MAINNET.nativeSymbol ETH_MAINNET.nativeDecimals
        ∈ (switchChain addOkWallet ETH_MAINNET.chainId).snd
    ∧ ∃ pre post, getAccountHoldings addOkWallet demoAddr
        = pre ++ chainHoldings addOkWallet demoAddr ETH_MAINNET ++ post :=
  switch_addnetwork_fallback addOkWallet ETH_MAINNET demoAddr unrecognizedErr
    (by decide) rfl rfl rfl (by decide)

/-- If any of the three token calls fails, the token read yields
`none`. -/
theorem getTokenBalance_none_of_fail (w : Wallet) (p tok a cn : String)
    (hfail : (w.contractAt p tok).balanceOf a = Except.error ()
      ∨ (w.contractAt p tok).symbol = Except.error ()
      ∨ (w.contractAt p tok).decimals = Except.error ()) :
    getTokenBalance w p tok a cn = none := by
  unfold getTokenBalance
  split
  · rename_i b2 s2 d2 hb2 hs2 hd2
    rcases hfail with hf | hf | hf
    · rw [hf] at hb2
      cases hb2
    · rw [hf] at hs2
      cases hs2
    · rw [hf] at hd2
      cases hd2
  · rfl

/-- C7: the token read queries balance, symbol and decimals together;
any one of the three failing makes that single token yield `none`, a
produced holding always carries the queried symbol and the balance
scaled by the queried decimals (never registry values), and a token that
reads successfully lands in the aggregation regardless of how the other
tokens of the same network fared. -/
theorem token_read_isolation (w : Wallet) (p tok a cn : String) :
    (((w.contractAt p tok).balanceOf a = Except.error ()
        ∨ (w.contractAt p tok).symbol = Except.error ()
        ∨ (w.contractAt p tok).decimals = Except.error ()) →
      getTokenBalance w p tok a cn = none)
    ∧ (∀ h, getTokenBalance w p tok a cn = some h →
        ∃ b sym dec, (w.contractAt p tok).balanceOf a = Except.ok b
          ∧ (w.contractAt p tok).symbol = Except.ok sym
          ∧ (w.contractAt p tok).decimals = Except.ok dec
          ∧ b ≠ 0
          ∧ h = { symbol := sym, chain := cn, quantity := formatUnits b dec,
                  selected := some false })
    ∧ (∀ chain t h2, chain ∈ SUPPORTED_CHAINS → t ∈ getCommonTokensForChain chain.chainId →
        exceptOk (switchChain w chain.chainId).fst = true →
        getTokenBalance w chain.chainId t.address a chain.name = some h2 →
        h2 ∈ getAccountHoldings w a) := by
  refine ⟨?_, ?_, ?_⟩
  · intro hfail
    exact getTokenBalance_none_of_fail w p tok a cn hfail
  · intro h hsome
    exact getTokenBalance_some hsome
  · intro chain t h2 hchain ht hok hsome
    exact tokenHolding_mem_agg w a chain t h2 hchain ht hok hsome

/-- Witness for C7: the demonstration wallet's USDC read on Ethereum
produces a holding that is present in the final aggregation. -/
theorem token_read_isolation_witness :
    demoTokenHolding ∈ getAccountHoldings demoWallet demoAddr :=
  (token_read_isolation demoWallet demoAddr usdcEthToken.address demoAddr
      ETH_MAINNET.name).2.2 ETH_MAINNET usdcEthToken demoTokenHolding
    (by decide) (by decide) (by decide) (by decide)

/-- C8: decimal scaling is exact full-precision division rendered as a
decimal string — a raw native balance of one Ether at 18 decimals
yields the quantity string for one, and a raw token balance of 500000
at 6 decimals yields the quantity string for one half. -/
theorem decimal_scaling_exact (w : Wallet) (p a tok cn sym : String) (chain : ChainInfo) :
    (w.getBalance p a = Except.ok 1000000000000000000 → chain.nativeDecimals = 18 →
      Option.map TokenHolding.quantity (getNativeTokenBalance w p a chain) = some oneStr)
    ∧ ((w.contractAt p tok).balanceOf a = Except.ok 500000 →
       (w.contractAt p tok).symbol = Except.ok sym →
       (w.contractAt p tok).decimals = Except.ok 6 →
      Option.map TokenHolding.quantity (getTokenBalance w p tok a cn) = some halfStr) := by
  constructor
  · intro hb hd
    rw [getNativeTokenBalance_pos w p a chain 1000000000000000000 hb (by decide), hd]
    exact congrArg some formatUnits_oneEther
  · intro hb hsym hdec
    rw [getTokenBalance_pos w p tok a cn 500000 sym 6 hb hsym hdec (by decide)]
    exact congrArg some formatUnits_half

/-- Witness for C8 at a wallet holding one Ether natively and 500000 raw
USDC units at 6 decimals. -/
theorem decimal_scaling_exact_witness :
    Option.map TokenHolding.quantity
        (getNativeTokenBalance oneEtherWallet ETH_MAINNET.chainId demoAddr ETH_MAINNET)
      = some oneStr
    ∧ Option.map TokenHolding.quantity
        (getTokenBalance oneEtherWallet ETH_MAINNET.chainId usdcEthToken.address demoAddr
          ETH_MAINNET.name)
      = some halfStr :=
  ⟨(decimal_scaling_exact oneEtherWallet ETH_MAINNET.chainId demoAddr usdcEthToken.address
      ETH_MAINNET.name usdcEthToken.symbol ETH_MAINNET).1 rfl rfl,
   (decimal_scaling_exact oneEtherWallet ETH_MAINNET.chainId demoAddr usdcEthToken.address
      ETH_MAINNET.name usdcEthToken.symbol ETH_MAINNET).2 rfl rfl rfl⟩

/-- Counterexample to C9 as stated: when the wallet's authorization
request rejects with an error whose message is empty, the rethrown
`MetaMaskError` carries the generic fallback message, not the original
(empty) message — JavaScript `error.message || fallback` substitutes the
fallback for any empty message. -/
theorem connect_wraps_message_cx :
    emptyMsgWallet.requestAccounts = Except.error emptyMsgErr
    ∧ emptyMsgErr.message = ""
    ∧ connectMetaMask emptyMsgEnv = Except.error (JsException.metaMaskError failedConnectMsg)
    ∧ failedConnectMsg ≠ emptyMsgErr.message := by
  refine ⟨rfl, rfl, ?_, ?_⟩ <;> decide

/-- C9 as amended: every error surfaced by `connectMetaMask` is a
`MetaMaskError`; a value thrown inside the `try` block (including the
internally thrown empty-account-list error) is rethrown as a new
`MetaMaskError` whose message is the user-rejection message when the
wallet reported code 4001, otherwise the original error's message when
that message is non-empty, and the generic fallback for an empty
message; and a successful connect returns one complete `Account` per
authorized address — never a partial list. -/
theorem connect_errors_wrapped (env : Env) :
    (∀ e, connectMetaMask env = Except.error e → ∃ m, e = JsException.metaMaskError m)
    ∧ (∀ w exc, env.windowDefined = true → env.ethereum = some w →
        connectTryBlock w = Except.error exc →
        connectMetaMask env = Except.error (JsException.metaMaskError
          (if exceptionCode exc = some 4001 then userRejectedMsg
           else if exceptionMessage exc = "" then failedConnectMsg
           else exceptionMessage exc)))
    ∧ (∀ w addrs, env.windowDefined = true → env.ethereum = some w →
        w.requestAccounts = Except.ok addrs → addrs ≠ [] →
        connectMetaMask env = Except.ok (addrs.map
          (fun a => { address := a, holdings := getAccountHoldings w a }))) :=
  ⟨fun e he => connectMetaMask_error_shape env e he,
   fun w exc hwin heth htry => connectMetaMask_wraps env w exc hwin heth htry,
   fun w addrs hwin heth hacc hne => connectMetaMask_ok env w addrs hwin heth hacc hne⟩

/-- Witness for the amended C9: a user rejection with code 4001 surfaces
as the user-rejection `MetaMaskError`. -/
theorem connect_errors_wrapped_witness :
    connectMetaMask rejectEnv = Except.error (JsException.metaMaskError userRejectedMsg) :=
  ((connect_errors_wrapped rejectEnv).2.1 rejectWallet (JsException.jsError addRejectErr)
    rfl rfl (by decide)).trans (by decide)

/-- C10: the known-token table is non-empty exactly for the Ethereum
(USDC, USDT, WBTC) and BSC (USDC, USDT) chain identifiers; every other
identifier — Polygon and Arbitrum included — gets the empty list, so on
those chains a successful switch contributes at most the native holding
and never a token holding. -/
theorem common_tokens_table (cid : String) (w : Wallet) (a : String) (chain : ChainInfo) :
    getCommonTokensForChain ETH_MAINNET.chainId
      = [usdcEthToken,
         { address := "0xdAC17F958D2ee523a2206206994597C13D831ec7", symbol := "USDT" },
         { address := "0x2260FAC5E5542a773Aa44fBCfeDf7C193bc2C599", symbol := "WBTC" }]
    ∧ getCommonTokensForChain BSC.chainId
      = [{ address := "0x8AC76a51cc950d9822D68b83fE1Ad97B32Cd580d", symbol := "USDC" },
         { address := "0x55d398326f99059fF775485246999027B3197955", symbol := "USDT" }]
    ∧ (cid ≠ ETH_MAINNET.chainId → cid ≠ BSC.chainId → getCommonTokensForChain cid = [])
    ∧ (chain ∈ SUPPORTED_CHAINS → chain.chainId ≠ ETH_MAINNET.chainId →
        chain.chainId ≠ BSC.chainId →
        chainHoldings w a chain = (getNativeTokenBalance w chain.chainId a chain).toList) := by
  refine ⟨by decide, by decide, ?_, ?_⟩
  · intro h1 h38
    exact getCommonTokensForChain_empty cid h1 h38
  · intro hchain h1 h38
    unfold chainHoldings
    rw [getCommonTokensForChain_empty chain.chainId h1 h38]
    simp

/-- Witness for C10: Polygon's known-token table is empty. -/
theorem common_tokens_table_witness :
    getCommonTokensForChain POLYGON.chainId = [] :=
  (common_tokens_table POLYGON.chainId demoWallet demoAddr POLYGON).2.2.1
    (by decide) (by decide)
